import Mathlib

/-!
# Verification of `sqlx-pg-migrate` (src/lib.rs)

A shallow embedding of the migration library. Database effects (connections,
queries, transaction statements, commit) are modelled by an explicit
environment `Env` of oracle outcomes, and `migrate` additionally returns the
chronological trace of transaction events it produced, so that control-flow
and atomicity properties can be stated and proved.
-/

namespace SqlxPgMigrate

/-- Raw bytes, used for `PathBuf` contents and migration file contents. -/
abbrev Bytes := List Nat

/-- Is `b` a UTF-8 continuation byte (`0x80..=0xBF`)? -/
def isCont (b : Nat) : Bool := 0x80 ≤ b && b < 0xC0

/-- UTF-8 decoding of a byte sequence into characters, rejecting overlong
encodings, surrogates and out-of-range code points. Models Rust's
`str::from_utf8` (the primitive behind `Path::to_str` and
`File::contents_utf8`), an external collaborator of the library. -/
def utf8Chars : Bytes → Option (List Char)
  | [] => some []
  | b :: rest =>
    if b < 0x80 then
      (utf8Chars rest).map (fun cs => Char.ofNat b :: cs)
    else if b < 0xC2 then
      none
    else if b < 0xE0 then
      match rest with
      | b1 :: rest2 =>
        if isCont b1 then
          (utf8Chars rest2).map (fun cs => Char.ofNat ((b - 0xC0) * 0x40 + (b1 - 0x80)) :: cs)
        else none
      | [] => none
    else if b < 0xF0 then
      match rest with
      | b1 :: b2 :: rest3 =>
        if isCont b1 && isCont b2 then
          let cp := (b - 0xE0) * 0x1000 + (b1 - 0x80) * 0x40 + (b2 - 0x80)
          if 0x800 ≤ cp ∧ ¬ (0xD800 ≤ cp ∧ cp < 0xE000) then
            (utf8Chars rest3).map (fun cs => Char.ofNat cp :: cs)
          else none
        else none
      | _ => none
    else if b < 0xF5 then
      match rest with
      | b1 :: b2 :: b3 :: rest4 =>
        if isCont b1 && isCont b2 && isCont b3 then
          let cp := (b - 0xF0) * 0x40000 + (b1 - 0x80) * 0x1000 + (b2 - 0x80) * 0x40 + (b3 - 0x80)
          if 0x10000 ≤ cp ∧ cp < 0x110000 then
            (utf8Chars rest4).map (fun cs => Char.ofNat cp :: cs)
          else none
        else none
      | _ => none
    else none

/-- UTF-8 decoding to a `String`; `none` on invalid bytes. -/
def utf8Decode (l : Bytes) : Option String :=
  (utf8Chars l).map (fun cs => String.mk cs)

/-- A structured database-level error, exposing the SQLSTATE code the way
`sqlx::error::DatabaseError::code` does. -/
structure DbErr where
  code : Option String
deriving DecidableEq, Repr

/-- The `sqlx::Error` values the library inspects: either a database-level
error carrying a `DbErr`, or any other (non-database) failure. -/
inductive SqlxError where
  | database : DbErr → SqlxError
  | otherErr : SqlxError
deriving DecidableEq, Repr

/-- The error enum of the library (`enum Error` in src/lib.rs). -/
inductive Error where
  | MissingMigration : String → Error
  | InvalidURL : String → Error
  | ExistingConnectError : SqlxError → Error
  | BaseConnect : String → SqlxError → Error
  | CurrentMigrations : SqlxError → Error
  | InvalidMigrationContent : Bytes → Error
  | InvalidMigrationPath : Bytes → Error
  | DeletedMigrations : Error
  | DB : SqlxError → Error
deriving DecidableEq, Repr

/-- `url.rsplitn(2, '/')` reassembled: everything before the last `'/'` and
everything after it, or `none` when the string has no `'/'` (in which case
the Rust `Vec` has length 1, not 2). -/
def rsplit2Slash : List Char → Option (List Char × List Char)
  | [] => none
  | c :: rest =>
    match rsplit2Slash rest with
    | some (a, b) => some (c :: a, b)
    | none => if c = '/' then some ([], rest) else none

/-- First element of `s.splitn(2, '?')`: the prefix up to (excluding) the
first `'?'`. -/
def takeUntilQ : List Char → List Char
  | [] => []
  | c :: rest => if c = '?' then [] else c :: takeUntilQ rest

/-- `base_and_db` from src/lib.rs: split a URL at its final `'/'` into the
base URL and the database-name segment (the latter truncated at the first
`'?'`); `InvalidURL` when the URL contains no `'/'`. -/
def base_and_db (url : String) : Except Error (String × String) :=
  match rsplit2Slash url.data with
  | none => .error (.InvalidURL url)
  | some (a, b) => .ok (String.mk a, String.mk (takeUntilQ b))

/-- Events observable on provisioning connections (`maybe_make_db`). -/
inductive ProvEvent where
  | connect : String → ProvEvent
  | createDatabase : String → ProvEvent
deriving DecidableEq, Repr

/-- A SQL statement executed on the migration transaction. -/
inductive Stmt where
  | createTable : String → Stmt
  | content : String → Stmt
  | insertRow : String → String → Stmt
deriving DecidableEq, Repr

/-- Events observable on the migration connection of `migrate`. -/
inductive Event where
  | beginTx : Event
  | stmt : Stmt → Event
  | commit : Event
deriving DecidableEq, Repr

/-- The oracle environment: outcomes of every database interaction the
library can perform (`none` means success where an `Option SqlxError` is
used). This models the external `sqlx` collaborator at its interface. -/
structure Env where
  connectRes : String → Option SqlxError
  createDbRes : Option SqlxError
  queryRes : Except SqlxError (List String)
  beginRes : Option SqlxError
  execRes : Stmt → Option SqlxError
  commitRes : Option SqlxError

/-- `maybe_make_db` from src/lib.rs, also returning the provisioning events
in order: connect to `url`; on success we are done; on a database error with
SQLSTATE `3D000` continue to create the database through `<base>/postgres`;
any other failure is `ExistingConnectError`. -/
def maybe_make_db (env : Env) (url : String) : Except Error Unit × List ProvEvent :=
  match env.connectRes url with
  | none => (.ok (), [.connect url])
  | some err =>
    match (match err with
           | SqlxError.database dberr =>
             if dberr.code = some "3D000" then Except.ok ()
             else Except.error (Error.ExistingConnectError (SqlxError.database dberr))
           | e => Except.error (Error.ExistingConnectError e)) with
    | .error e => (.error e, [.connect url])
    | .ok _ =>
      match base_and_db url with
      | .error e => (.error e, [.connect url])
      | .ok (base_url, db_name) =>
        match env.connectRes (base_url ++ "/postgres") with
        | some cerr =>
          (.error (.BaseConnect base_url cerr), [.connect url, .connect (base_url ++ "/postgres")])
        | none =>
          match env.createDbRes with
          | some derr =>
            (.error (.DB derr),
             [.connect url, .connect (base_url ++ "/postgres"), .createDatabase db_name])
          | none =>
            (.ok (),
             [.connect url, .connect (base_url ++ "/postgres"), .createDatabase db_name])

/-- `get_migrated` from src/lib.rs, applied to the raw outcome of the
history query: pass successes through, turn a `42P01` (missing table)
database error into an empty history, and wrap every other failure in
`CurrentMigrations`. -/
def get_migrated (queryRes : Except SqlxError (List String)) : Except Error (List String) :=
  match queryRes with
  | .ok migrated => .ok migrated
  | .error err =>
    match err with
    | .database dberr =>
      if dberr.code = some "42P01" then .ok []
      else .error (.CurrentMigrations (.database dberr))
    | e => .error (.CurrentMigrations e)

/-- A row of the bookkeeping table. -/
structure HistoryRow where
  id : Nat
  migration : String
deriving DecidableEq, Repr

/-- The database's evaluation of the query
`SELECT migration FROM {table} ORDER BY id` issued by `get_migrated`:
when the table is absent the database reports SQLSTATE `42P01`; otherwise
it returns the `migration` column of the rows sorted by `id` ascending.
Models the external collaborator semantics of the SQL text in src/lib.rs. -/
def selectMigrations (table : Option (List HistoryRow)) : Except SqlxError (List String) :=
  match table with
  | none => .error (.database ⟨some "42P01"⟩)
  | some rows =>
    .ok ((List.insertionSort (fun r s => r.id ≤ s.id) rows).map HistoryRow.migration)

/-- A migration file as provided by `include_dir::Dir`: its path and raw
contents, both byte sequences. -/
structure MFile where
  path : Bytes
  contents : Bytes
deriving DecidableEq, Repr

/-- Lexicographic three-way comparison of byte sequences; models the total
order `Ord` of Rust's `Path` for the flat byte representation used here. -/
def pathCmp : Bytes → Bytes → Ordering
  | [], [] => .eq
  | [], _ :: _ => .lt
  | _ :: _, [] => .gt
  | a :: as, b :: bs => if a < b then .lt else if b < a then .gt else pathCmp as bs

/-- Rust's `Path::partial_cmp`: since `Path` implements the total `Ord`,
its `PartialOrd::partial_cmp` is `Some(cmp(a, b))` for every pair. The
source comparator `a.path().partial_cmp(b.path()).unwrap()` unwraps this. -/
def pathCmpOpt (a b : Bytes) : Option Ordering := some (pathCmp a b)

/-- The "less or equal" relation induced by the source's sort comparator:
`a` may stay before `b` exactly when the comparator does not say `Greater`. -/
def pathLe (a b : MFile) : Prop := pathCmp a.path b.path ≠ .gt

instance : DecidableRel pathLe := fun a b => by
  unfold pathLe; infer_instance

/-- `files.sort_by(|a, b| a.path().partial_cmp(b.path()).unwrap())` from
src/lib.rs: a stable sort of the candidate files by the path comparator. -/
def sortFiles (l : List MFile) : List MFile := List.insertionSort pathLe l

/-- The default bookkeeping table name (`DEFAULT_MIGRATION_TABLE`). -/
def DEFAULT_MIGRATION_TABLE : String := "sqlx_pg_migrate"

/-- The `for (pos, f) in files.iter().enumerate()` loop of `migrate`:
decode the path; below `migrated.len()` require the history entry to equal
the path (mismatch is `MissingMigration`) and skip; at or beyond it decode
the contents (`InvalidMigrationContent` on failure), execute them on the
transaction and insert the bookkeeping row. `tr` accumulates the events in
chronological order. -/
def walkFiles (env : Env) (tname : String) (migrated : List String) :
    List MFile → Nat → List Event → Except Error Unit × List Event
  | [], _, tr => (.ok (), tr)
  | f :: rest, pos, tr =>
    match utf8Decode f.path with
    | none => (.error (.InvalidMigrationPath f.path), tr)
    | some path =>
      if h : pos < migrated.length then
        if migrated.get ⟨pos, h⟩ ≠ path then
          (.error (.MissingMigration path), tr)
        else
          walkFiles env tname migrated rest (pos + 1) tr
      else
        match utf8Decode f.contents with
        | none => (.error (.InvalidMigrationContent f.path), tr)
        | some content =>
          match env.execRes (.content content) with
          | some err => (.error (.DB err), tr ++ [.stmt (.content content)])
          | none =>
            match env.execRes (.insertRow tname path) with
            | some err =>
              (.error (.DB err),
               tr ++ [.stmt (.content content), .stmt (.insertRow tname path)])
            | none =>
              walkFiles env tname migrated rest (pos + 1)
                (tr ++ [.stmt (.content content), .stmt (.insertRow tname path)])

/-- The outcome of a `migrate` call: its result, the chronological trace of
events on the migration transaction, and whether the transaction was
committed. -/
structure MigrateResult where
  result : Except Error Unit
  trace : List Event
  committed : Bool
deriving Repr

/-- `migrate` from src/lib.rs: provision the database, connect, read the
history, begin a transaction, lazily create the bookkeeping table when the
history is empty, check for deleted migrations, sort the candidates, walk
them, and commit. -/
def migrate (env : Env) (url : String) (dir : List MFile) (table : Option String) :
    MigrateResult :=
  let migration_table := table.getD DEFAULT_MIGRATION_TABLE
  match (maybe_make_db env url).1 with
  | .error e => ⟨.error e, [], false⟩
  | .ok _ =>
    match env.connectRes url with
    | some err => ⟨.error (.DB err), [], false⟩
    | none =>
      match get_migrated env.queryRes with
      | .error e => ⟨.error e, [], false⟩
      | .ok migrated =>
        match env.beginRes with
        | some err => ⟨.error (.DB err), [], false⟩
        | none =>
          match (if migrated.isEmpty then
                   match env.execRes (.createTable migration_table) with
                   | some err =>
                     (Except.error (Error.DB err),
                      [Event.beginTx, Event.stmt (.createTable migration_table)])
                   | none =>
                     (Except.ok (),
                      [Event.beginTx, Event.stmt (.createTable migration_table)])
                 else (Except.ok (), [Event.beginTx])) with
          | (.error e, tr) => ⟨.error e, tr, false⟩
          | (.ok _, tr) =>
            if migrated.length > dir.length then
              ⟨.error .DeletedMigrations, tr, false⟩
            else
              match walkFiles env migration_table migrated (sortFiles dir) 0 tr with
              | (.error e, tr2) => ⟨.error e, tr2, false⟩
              | (.ok _, tr2) =>
                match env.commitRes with
                | some err => ⟨.error (.DB err), tr2 ++ [.commit], false⟩
                | none => ⟨.ok (), tr2 ++ [.commit], true⟩

instance {ε α : Type} [DecidableEq ε] [DecidableEq α] : DecidableEq (Except ε α) := fun a b =>
  match a, b with
  | .ok x, .ok y =>
    if h : x = y then .isTrue (by rw [h]) else .isFalse (fun he => h (Except.ok.inj he))
  | .error x, .error y =>
    if h : x = y then .isTrue (by rw [h]) else .isFalse (fun he => h (Except.error.inj he))
  | .ok _, .error _ => .isFalse (fun he => Except.noConfusion he)
  | .error _, .ok _ => .isFalse (fun he => Except.noConfusion he)

/-- The bookkeeping rows inserted on the transaction during a run, read off
the trace. -/
def txInserts (tr : List Event) : List String :=
  tr.filterMap fun e =>
    match e with
    | .stmt (.insertRow _ m) => some m
    | _ => none

/-- Transaction semantics of the database collaborator: only a committed
transaction persists; an uncommitted (dropped or failed) transaction leaves
the bookkeeping table exactly as it was. -/
def persistedHistory (init : List String) (r : MigrateResult) : List String :=
  if r.committed then init ++ txInserts r.trace else init

/-! ## Order-theoretic facts about the sort comparator -/

theorem pathCmp_swap : ∀ a b : Bytes, pathCmp b a = (pathCmp a b).swap
  | [], [] => rfl
  | [], _ :: _ => rfl
  | _ :: _, [] => rfl
  | a :: as, b :: bs => by
    simp only [pathCmp]
    rcases Nat.lt_trichotomy a b with h | h | h
    · simp [h, Nat.lt_asymm h, Ordering.swap]
    · subst h
      simp [Nat.lt_irrefl, pathCmp_swap as bs]
    · simp [h, Nat.lt_asymm h, Ordering.swap]

theorem pathCmp_nil_ne_gt : ∀ l : Bytes, pathCmp [] l ≠ .gt
  | [] => by simp [pathCmp]
  | _ :: _ => by simp [pathCmp]

theorem pathCmp_cons_ne_gt {x y : Nat} {xs ys : Bytes} :
    pathCmp (x :: xs) (y :: ys) ≠ .gt ↔ x < y ∨ (x = y ∧ pathCmp xs ys ≠ .gt) := by
  simp only [pathCmp]
  rcases Nat.lt_trichotomy x y with h | h | h
  · simp [h]
  · subst h
    simp [Nat.lt_irrefl]
  · have hne : x ≠ y := by omega
    simp [h, Nat.lt_asymm h, hne]

theorem pathCmp_le_trans : ∀ a b c : Bytes,
    pathCmp a b ≠ .gt → pathCmp b c ≠ .gt → pathCmp a c ≠ .gt
  | [], _, c, _, _ => pathCmp_nil_ne_gt c
  | _ :: _, [], _, h1, _ => absurd rfl h1
  | _ :: _, _ :: _, [], _, h2 => absurd rfl h2
  | x :: xs, y :: ys, z :: zs, h1, h2 => by
    rw [pathCmp_cons_ne_gt] at h1 h2 ⊢
    rcases h1 with h1 | ⟨h1, h1'⟩ <;> rcases h2 with h2 | ⟨h2, h2'⟩
    · exact Or.inl (Nat.lt_trans h1 h2)
    · exact Or.inl (h2 ▸ h1)
    · exact Or.inl (h1 ▸ h2)
    · exact Or.inr ⟨h1.trans h2, pathCmp_le_trans xs ys zs h1' h2'⟩

instance : IsTrans MFile pathLe :=
  ⟨fun a b c h1 h2 => pathCmp_le_trans a.path b.path c.path h1 h2⟩

instance : IsTotal MFile pathLe := by
  refine ⟨fun a b => ?_⟩
  unfold pathLe
  by_cases h : pathCmp a.path b.path = .gt
  · refine Or.inr ?_
    rw [pathCmp_swap, h]
    simp [Ordering.swap]
  · exact Or.inl h

/-! ## Facts about URL splitting -/

theorem rsplit2Slash_none : ∀ {l : List Char}, rsplit2Slash l = none ↔ '/' ∉ l := by
  intro l
  induction l with
  | nil => simp [rsplit2Slash]
  | cons c rest ih =>
    simp only [rsplit2Slash]
    cases hr : rsplit2Slash rest with
    | some p =>
      have hm : '/' ∈ rest := by
        by_contra hnm
        rw [ih.mpr hnm] at hr
        exact Option.noConfusion hr
      simp [hm]
    | none =>
      have hnm : '/' ∉ rest := ih.mp hr
      by_cases hc : c = '/'
      · subst hc
        simp
      · have : ¬ ('/' = c) := fun h => hc h.symm
        simp [hc, hnm, this]

theorem rsplit2Slash_some : ∀ {l a b : List Char},
    rsplit2Slash l = some (a, b) → l = a ++ '/' :: b ∧ '/' ∉ b := by
  intro l
  induction l with
  | nil => intro a b h; simp [rsplit2Slash] at h
  | cons c rest ih =>
    intro a b h
    simp only [rsplit2Slash] at h
    cases hr : rsplit2Slash rest with
    | some p =>
      rw [hr] at h
      cases p with
      | mk pa pb =>
        simp only [Option.some.injEq, Prod.mk.injEq] at h
        obtain ⟨ha, hb⟩ := h
        obtain ⟨heq, hnb⟩ := ih hr
        subst ha
        subst hb
        exact ⟨by rw [heq]; rfl, hnb⟩
    | none =>
      rw [hr] at h
      by_cases hc : c = '/'
      · rw [if_pos hc] at h
        simp only [Option.some.injEq, Prod.mk.injEq] at h
        obtain ⟨ha, hb⟩ := h
        subst hc
        subst hb
        exact ⟨by rw [← ha]; rfl, rsplit2Slash_none.mp hr⟩
      · rw [if_neg hc] at h
        exact Option.noConfusion h

/-! ## Shared helper lemmas and concrete environments -/

/-- A benign oracle environment: every database interaction succeeds and the
history query returns `migrated`. -/
def envOk (migrated : List String) : Env :=
  { connectRes := fun _ => none, createDbRes := none, queryRes := .ok migrated,
    beginRes := none, execRes := fun _ => none, commitRes := none }

/-- An environment whose history query fails with a database error that is
not `42P01`. -/
def envBadQuery : Env :=
  { envOk [] with queryRes := .error (.database ⟨some "XX000"⟩) }

theorem migrate_committed_result (env : Env) (url : String) (dir : List MFile)
    (table : Option String) :
    (migrate env url dir table).committed = true →
      (migrate env url dir table).result = .ok () := by
  simp only [migrate]
  repeat' split
  all_goals intro h
  all_goals first | rfl | exact Bool.noConfusion h

theorem migrate_deleted_aux (env : Env) (url : String) (dir : List MFile)
    (table : Option String) (migrated : List String)
    (hconn : env.connectRes url = none) (hq : env.queryRes = .ok migrated)
    (hbegin : env.beginRes = none) (hlen : migrated.length > dir.length) :
    migrate env url dir table = ⟨.error .DeletedMigrations, [.beginTx], false⟩ := by
  have hie : migrated.isEmpty = false := by
    cases migrated with
    | nil => simp at hlen
    | cons a l => rfl
  simp only [migrate, hconn, hq, hbegin, get_migrated, hie, maybe_make_db]
  simp [hlen]

theorem migrate_eq_walk (env : Env) (url : String) (dir : List MFile)
    (table : Option String) (migrated : List String)
    (hconn : env.connectRes url = none) (hq : env.queryRes = .ok migrated)
    (hbegin : env.beginRes = none) (hne : migrated ≠ [])
    (hlen : ¬ migrated.length > dir.length) :
    migrate env url dir table =
      (match walkFiles env (table.getD DEFAULT_MIGRATION_TABLE) migrated (sortFiles dir) 0
          [.beginTx] with
       | (.error e, tr2) => ⟨.error e, tr2, false⟩
       | (.ok _, tr2) =>
         match env.commitRes with
         | some err => ⟨.error (.DB err), tr2 ++ [.commit], false⟩
         | none => ⟨.ok (), tr2 ++ [.commit], true⟩) := by
  have hie : migrated.isEmpty = false := by
    cases migrated with
    | nil => exact absurd rfl hne
    | cons a l => rfl
  simp only [migrate, hconn, hq, hbegin, get_migrated, hie, maybe_make_db]
  simp [hlen]

theorem walkFiles_skip_matched (env : Env) (tname : String) (migrated : List String) :
    ∀ (k : Nat) (files : List MFile) (pos : Nat) (tr : List Event)
      (hk : k ≤ files.length) (hm : pos + k ≤ migrated.length),
      (∀ i (hik : i < k),
        utf8Decode ((files.get ⟨i, lt_of_lt_of_le hik hk⟩).path) =
          some (migrated.get ⟨pos + i, by omega⟩)) →
      walkFiles env tname migrated files pos tr =
        walkFiles env tname migrated (files.drop k) (pos + k) tr := by
  intro k
  induction k with
  | zero => intro files pos tr _ _ _; simp
  | succ j ih =>
    intro files pos tr hk hm hmatch
    cases files with
    | nil => simp at hk
    | cons f rest =>
      have h0 := hmatch 0 (Nat.succ_pos j)
      simp only [List.get] at h0
      have hstep : walkFiles env tname migrated (f :: rest) pos tr =
          walkFiles env tname migrated rest (pos + 1) tr := by
        simp only [walkFiles, h0]
        rw [dif_pos (show pos < migrated.length by omega)]
        rw [if_neg (by simp)]
      rw [hstep]
      have hrest := ih rest (pos + 1) tr (by simpa using hk) (by omega)
        (fun i hik => by
          have := hmatch (i + 1) (by omega)
          simpa [Nat.add_comm, Nat.add_assoc, Nat.add_left_comm] using this)
      rw [hrest]
      congr 1
      omega

instance : IsTotal HistoryRow (fun r s => r.id ≤ s.id) :=
  ⟨fun a b => Nat.le_total a.id b.id⟩

instance : IsTrans HistoryRow (fun r s => r.id ≤ s.id) :=
  ⟨fun _ _ _ => Nat.le_trans⟩

/-! ## Claim theorems -/

/-- C9: `base_and_db` splits every URL containing a `'/'` into the part
before the final `'/'` and the segment after it truncated at the first
`'?'`; it returns `InvalidURL` carrying the URL exactly when the URL
contains no `'/'`. -/
theorem base_and_db_spec (url : String) :
    ('/' ∈ url.data →
      ∃ a b, url.data = a ++ '/' :: b ∧ '/' ∉ b ∧
        base_and_db url = .ok (String.mk a, String.mk (takeUntilQ b))) ∧
    (base_and_db url = .error (.InvalidURL url) ↔ '/' ∉ url.data) := by
  constructor
  · intro hmem
    cases hr : rsplit2Slash url.data with
    | none => exact absurd hmem (rsplit2Slash_none.mp hr)
    | some p =>
      cases p with
      | mk a b =>
        obtain ⟨heq, hnb⟩ := rsplit2Slash_some hr
        exact ⟨a, b, heq, hnb, by simp [base_and_db, hr]⟩
  · constructor
    · intro h
      cases hr : rsplit2Slash url.data with
      | none => exact rsplit2Slash_none.mp hr
      | some p =>
        cases p with
        | mk a b => simp [base_and_db, hr] at h
    · intro h
      simp [base_and_db, rsplit2Slash_none.mpr h]

/-- C9 witness: a concrete URL with a query string splits as stated. -/
theorem base_and_db_spec_witness :
    ∃ a b, ("postgresql://localhost/mydb?sslmode=disable").data = a ++ '/' :: b ∧
      '/' ∉ b ∧
      base_and_db "postgresql://localhost/mydb?sslmode=disable" =
        .ok (String.mk a, String.mk (takeUntilQ b)) :=
  (base_and_db_spec "postgresql://localhost/mydb?sslmode=disable").1 (by decide)

/-- C10: the sort comparator's unwrap never panics: the modelled
`Path::partial_cmp` always returns `some`, the induced relation is total,
and sorting the candidate files always yields a sorted permutation of the
input, so `migrate` cannot fail at the sorting step. -/
theorem sort_comparator_total :
    (∀ a b : MFile, (pathCmpOpt a.path b.path).isSome = true) ∧
    (∀ a b : MFile, pathLe a b ↔ pathCmpOpt a.path b.path ≠ some .gt) ∧
    (∀ a b : MFile, pathLe a b ∨ pathLe b a) ∧
    (∀ l : List MFile, List.Sorted pathLe (sortFiles l) ∧ (sortFiles l).Perm l) := by
  refine ⟨fun a b => rfl, fun a b => by simp [pathLe, pathCmpOpt], fun a b => total_of pathLe a b,
    fun l => ⟨List.sorted_insertionSort pathLe l, List.perm_insertionSort pathLe l⟩⟩

/-- C7: `maybe_make_db` returns success immediately when the first connect
succeeds; on a database error with SQLSTATE `3D000` it proceeds to create
the database through an administrative connection to `<base>/postgres`;
any other failure surfaces as `ExistingConnectError`. -/
theorem maybe_make_db_spec (env : Env) (url : String) :
    (env.connectRes url = none →
      maybe_make_db env url = (.ok (), [.connect url])) ∧
    (∀ d, env.connectRes url = some (.database d) → d.code = some "3D000" →
      ∀ base name, base_and_db url = .ok (base, name) →
        env.connectRes (base ++ "/postgres") = none → env.createDbRes = none →
        maybe_make_db env url =
          (.ok (), [.connect url, .connect (base ++ "/postgres"), .createDatabase name])) ∧
    (∀ err, env.connectRes url = some err →
      (∀ d, err = SqlxError.database d → d.code ≠ some "3D000") →
      (maybe_make_db env url).1 = .error (.ExistingConnectError err)) := by
  refine ⟨?_, ?_, ?_⟩
  · intro h
    simp [maybe_make_db, h]
  · intro d hconn hcode base name hsplit hpg hcreate
    simp [maybe_make_db, hconn, hcode, hsplit, hpg, hcreate]
  · intro err hconn hnot
    cases err with
    | database d =>
      have hne : ¬ d.code = some "3D000" := hnot d rfl
      simp [maybe_make_db, hconn, hne]
    | otherErr => simp [maybe_make_db, hconn]

/-- An environment in which the target database is missing (`3D000` on the
first connect) and all other interactions succeed. -/
def envMissingDb : Env :=
  { envOk [] with
    connectRes := fun u =>
      if u = "postgresql://h/db" then some (.database ⟨some "3D000"⟩) else none }

/-- C7 witness: a concrete missing-database run creates the database via
the administrative connection. -/
theorem maybe_make_db_spec_witness :
    maybe_make_db envMissingDb "postgresql://h/db" =
      (.ok (), [.connect "postgresql://h/db", .connect "postgresql://h/postgres",
                .createDatabase "db"]) :=
  (maybe_make_db_spec envMissingDb "postgresql://h/db").2.1 ⟨some "3D000"⟩ (by decide)
    (by decide) "postgresql://h" "db" (by decide) (by decide) (by decide)

/-- C8: the history read returns the `migration` values in ascending `id`
order on success, turns a `42P01` (missing table) failure into an empty
history, and wraps every other failure in `CurrentMigrations`. -/
theorem get_migrated_spec :
    (∀ rows : List HistoryRow,
      get_migrated (selectMigrations (some rows)) =
        .ok ((List.insertionSort (fun r s => r.id ≤ s.id) rows).map HistoryRow.migration) ∧
      List.Sorted (fun r s : HistoryRow => r.id ≤ s.id)
        (List.insertionSort (fun r s => r.id ≤ s.id) rows) ∧
      (List.insertionSort (fun r s : HistoryRow => r.id ≤ s.id) rows).Perm rows) ∧
    (∀ d : DbErr, d.code = some "42P01" →
      get_migrated (.error (.database d)) = .ok []) ∧
    (∀ err : SqlxError, (∀ d, err = SqlxError.database d → d.code ≠ some "42P01") →
      get_migrated (.error err) = .error (.CurrentMigrations err)) ∧
    (∀ ms : List String, get_migrated (.ok ms) = .ok ms) := by
  refine ⟨fun rows => ⟨rfl, ?_, ?_⟩, fun d hd => by simp [get_migrated, hd], ?_, fun ms => rfl⟩
  · exact List.sorted_insertionSort _ rows
  · exact List.perm_insertionSort _ rows
  · intro err hnot
    cases err with
    | database d =>
      have hne : ¬ d.code = some "42P01" := hnot d rfl
      simp [get_migrated, hne]
    | otherErr => simp [get_migrated]

/-- C8 witness: a concrete out-of-order table is returned sorted by `id`,
and a concrete `42P01` failure is treated as an empty history. -/
theorem get_migrated_spec_witness :
    get_migrated (selectMigrations (some [⟨2, "b"⟩, ⟨1, "a"⟩])) = .ok ["a", "b"] ∧
    get_migrated (.error (.database ⟨some "42P01"⟩)) = .ok [] := by
  constructor
  · have h := (get_migrated_spec.1 [⟨2, "b"⟩, ⟨1, "a"⟩]).1
    rw [h]
    rfl
  · exact get_migrated_spec.2.1 ⟨some "42P01"⟩ rfl

/-- Claim C1: during the walk of the sorted candidates, at every position
below the history length the history entry must equal the candidate's
identity: on the first mismatch `migrate` returns `MissingMigration` naming
that candidate's identity (with no statement executed at all), and on a
match the candidate is skipped — the walk continues with an unchanged
trace. -/
theorem migrate_prefix_check (env : Env) (url : String) (dir : List MFile)
    (table : Option String) (migrated : List String) (pos : Nat)
    (hconn : env.connectRes url = none) (hq : env.queryRes = .ok migrated)
    (hbegin : env.beginRes = none)
    (hlen : ¬ migrated.length > dir.length)
    (hpos : pos < migrated.length)
    (hposf : pos < (sortFiles dir).length)
    (hmatched : ∀ i (hi : i < pos),
      utf8Decode (((sortFiles dir).get ⟨i, by omega⟩).path) =
        some (migrated.get ⟨i, by omega⟩))
    (p : String)
    (hdec : utf8Decode (((sortFiles dir).get ⟨pos, hposf⟩).path) = some p) :
    (migrated.get ⟨pos, hpos⟩ ≠ p →
      migrate env url dir table = ⟨.error (.MissingMigration p), [.beginTx], false⟩) ∧
    (migrated.get ⟨pos, hpos⟩ = p →
      ∀ tname tr, walkFiles env tname migrated ((sortFiles dir).drop pos) pos tr =
        walkFiles env tname migrated ((sortFiles dir).drop (pos + 1)) (pos + 1) tr) := by
  have hne : migrated ≠ [] := by
    intro h
    rw [h] at hpos
    exact Nat.not_lt_zero pos hpos
  have hdropcons : (sortFiles dir).drop pos =
      (sortFiles dir).get ⟨pos, hposf⟩ :: (sortFiles dir).drop (pos + 1) := by
    rw [List.drop_eq_getElem_cons hposf]
    simp [List.get_eq_getElem]
  constructor
  · intro hne_p
    rw [migrate_eq_walk env url dir table migrated hconn hq hbegin hne hlen]
    have h1 := walkFiles_skip_matched env (table.getD DEFAULT_MIGRATION_TABLE) migrated pos
      (sortFiles dir) 0 [.beginTx] (by omega) (by omega)
      (fun i hik => by simpa using hmatched i hik)
    have hwalk : walkFiles env (table.getD DEFAULT_MIGRATION_TABLE) migrated
        (sortFiles dir) 0 [.beginTx] = (.error (.MissingMigration p), [.beginTx]) := by
      rw [h1]
      simp only [Nat.zero_add]
      rw [hdropcons]
      simp only [walkFiles, hdec]
      rw [dif_pos hpos, if_pos hne_p]
    rw [hwalk]
  · intro heq_p tname tr
    rw [hdropcons]
    simp only [walkFiles, hdec]
    rw [dif_pos hpos, if_neg (not_not_intro heq_p)]

/-- Claim C1 witness: with history `["b"]` and a single candidate whose
path decodes to `"a"`, the walk fails with `MissingMigration "a"` and no
statement beyond the begin is executed. -/
theorem migrate_prefix_check_witness :
    migrate (envOk ["b"]) "u/v" [⟨[0x61], []⟩] none =
      ⟨.error (.MissingMigration "a"), [.beginTx], false⟩ :=
  (migrate_prefix_check (envOk ["b"]) "u/v" [⟨[0x61], []⟩] none ["b"] 0 rfl rfl rfl
    (by decide) (by decide) (by decide) (fun i hi => absurd hi (Nat.not_lt_zero i)) "a"
    (by decide)).1 (by decide)

/-- Claim C2: candidates are walked in ascending identity order regardless
of the input collection's order (the walked list is a sorted permutation of
the input, and permuted inputs sort to permuted-equal lists); a new
candidate (position at or beyond the history length) whose content is not
valid UTF-8 fails with `InvalidMigrationContent` naming its path, and an
otherwise-valid new candidate has its content executed verbatim on the
transaction followed by exactly one bookkeeping insert of its identity. -/
theorem migrate_new_candidates (env : Env) (tname : String) (migrated : List String)
    (f : MFile) (rest : List MFile) (pos : Nat) (tr : List Event)
    (hpos : ¬ pos < migrated.length) (p : String)
    (hdecp : utf8Decode f.path = some p) :
    (∀ dir : List MFile, List.Sorted pathLe (sortFiles dir) ∧ (sortFiles dir).Perm dir ∧
      ∀ dir2 : List MFile, dir.Perm dir2 → (sortFiles dir).Perm (sortFiles dir2)) ∧
    (utf8Decode f.contents = none →
      walkFiles env tname migrated (f :: rest) pos tr =
        (.error (.InvalidMigrationContent f.path), tr)) ∧
    (∀ content, utf8Decode f.contents = some content →
      env.execRes (.content content) = none →
      env.execRes (.insertRow tname p) = none →
      walkFiles env tname migrated (f :: rest) pos tr =
        walkFiles env tname migrated rest (pos + 1)
          (tr ++ [.stmt (.content content), .stmt (.insertRow tname p)])) := by
  refine ⟨fun dir => ⟨List.sorted_insertionSort pathLe dir, List.perm_insertionSort pathLe dir,
    fun dir2 h => (List.perm_insertionSort pathLe dir).trans
      (h.trans (List.perm_insertionSort pathLe dir2).symm)⟩, ?_, ?_⟩
  · intro hbad
    simp only [walkFiles, hdecp]
    rw [dif_neg hpos]
    simp [hbad]
  · intro content hc he1 he2
    simp only [walkFiles, hdecp]
    rw [dif_neg hpos]
    simp [hc, he1, he2]

/-- Claim C2 witness: a new candidate with invalid UTF-8 contents fails
with `InvalidMigrationContent` naming its path. -/
theorem migrate_new_candidates_witness :
    walkFiles (envOk []) "t" [] [⟨[0x61], [0xC0]⟩] 0 [] =
      (.error (.InvalidMigrationContent [0x61]), []) :=
  (migrate_new_candidates (envOk []) "t" [] ⟨[0x61], [0xC0]⟩ [] 0 [] (by decide) "a"
    (by decide)).2.1 (by decide)

/-- Claim C3: whenever `migrate` returns an error the transaction was never
committed, so under the database's transaction semantics the persisted
bookkeeping history is exactly what it was before the run. -/
theorem migrate_error_atomic (env : Env) (url : String) (dir : List MFile)
    (table : Option String) (e : Error)
    (herr : (migrate env url dir table).result = .error e) :
    (migrate env url dir table).committed = false ∧
    ∀ init : List String, persistedHistory init (migrate env url dir table) = init := by
  have hc : (migrate env url dir table).committed = false := by
    by_contra hcc
    have hb : (migrate env url dir table).committed = true := by
      cases h : (migrate env url dir table).committed
      · exact absurd h hcc
      · rfl
    have hok := migrate_committed_result env url dir table hb
    rw [hok] at herr
    exact Except.noConfusion herr
  refine ⟨hc, fun init => ?_⟩
  simp [persistedHistory, hc]

/-- Claim C3 witness: a failing history query aborts the run uncommitted
and leaves a concrete persisted history unchanged. -/
theorem migrate_error_atomic_witness :
    (migrate envBadQuery "u/v" [] none).committed = false ∧
    persistedHistory ["m0"] (migrate envBadQuery "u/v" [] none) = ["m0"] :=
  ⟨(migrate_error_atomic envBadQuery "u/v" [] none
      (.CurrentMigrations (.database ⟨some "XX000"⟩)) (by decide)).1,
   (migrate_error_atomic envBadQuery "u/v" [] none
      (.CurrentMigrations (.database ⟨some "XX000"⟩)) (by decide)).2 ["m0"]⟩

/-- Claim C4 is refuted at this input: with a non-empty history and no
candidates, `migrate` does return `DeletedMigrations`, but the transaction
has already been begun when the check fires — `beginTx` is in the trace —
contradicting "before the transaction is begun". -/
theorem deleted_check_counterexample :
    (migrate (envOk ["000_a.sql"]) "postgresql://h/db" [] none).result =
      .error .DeletedMigrations ∧
    Event.beginTx ∈ (migrate (envOk ["000_a.sql"]) "postgresql://h/db" [] none).trace := by
  decide

/-- Claim C4 amended: if more migrations are recorded than candidates
exist, `migrate` fails with `DeletedMigrations`; the check fires inside
the transaction — after begin (history being non-empty, no lazy table
creation happens) but before any candidate work — and the transaction is
never committed. -/
theorem deleted_check_in_tx (env : Env) (url : String) (dir : List MFile)
    (table : Option String) (migrated : List String)
    (hconn : env.connectRes url = none) (hq : env.queryRes = .ok migrated)
    (hbegin : env.beginRes = none) (hlen : migrated.length > dir.length) :
    migrate env url dir table = ⟨.error .DeletedMigrations, [.beginTx], false⟩ :=
  migrate_deleted_aux env url dir table migrated hconn hq hbegin hlen

/-- Claim C4 witness: a concrete two-entry history with one candidate. -/
theorem deleted_check_in_tx_witness :
    migrate (envOk ["m1", "m2"]) "u/v" [⟨[0x61], []⟩] none =
      ⟨.error .DeletedMigrations, [.beginTx], false⟩ :=
  deleted_check_in_tx (envOk ["m1", "m2"]) "u/v" [⟨[0x61], []⟩] none ["m1", "m2"]
    rfl rfl rfl (by decide)

/-- Claim C5 is refuted at this input: an empty candidate set with the
non-empty history `["000_first.sql"]` returns `DeletedMigrations`, so the
call IS an error. -/
theorem empty_candidates_counterexample :
    (migrate (envOk ["000_first.sql"]) "u/v" [] none).result =
      .error .DeletedMigrations := by
  decide

/-- Claim C5 amended: an empty candidate set with a non-empty history is an
error: the cardinality check fires whenever history is strictly larger than
the candidate set, which holds for every non-empty history with no
candidates, so `migrate` returns `DeletedMigrations`. -/
theorem empty_candidates_nonempty_history (env : Env) (url : String)
    (table : Option String) (migrated : List String)
    (hconn : env.connectRes url = none) (hq : env.queryRes = .ok migrated)
    (hbegin : env.beginRes = none) (hne : migrated ≠ []) :
    (migrate env url [] table).result = .error .DeletedMigrations := by
  have hlen : migrated.length > ([] : List MFile).length := by
    cases migrated with
    | nil => exact absurd rfl hne
    | cons a l => simp
  rw [migrate_deleted_aux env url [] table migrated hconn hq hbegin hlen]

/-- Claim C5 witness: a concrete one-entry history with no candidates. -/
theorem empty_candidates_nonempty_history_witness :
    (migrate (envOk ["x"]) "u/v" [] none).result = .error .DeletedMigrations :=
  empty_candidates_nonempty_history (envOk ["x"]) "u/v" none ["x"] rfl rfl rfl (by decide)

/-- Claim C6 is refuted at this input: with empty candidates and empty
history the run is not statement-free — it executes the bookkeeping table
creation. -/
theorem empty_noop_counterexample :
    (migrate (envOk []) "u/v" [] none).result = .ok () ∧
    Event.stmt (.createTable "sqlx_pg_migrate") ∈
      (migrate (envOk []) "u/v" [] none).trace := by
  decide

/-- Claim C6 amended: with empty candidates and empty history, `migrate`
begins a transaction, executes exactly one statement — the lazy creation of
the bookkeeping table — and commits; no migration content runs and no
history row is inserted. -/
theorem empty_empty_creates_table (env : Env) (url : String) (table : Option String)
    (hconn : env.connectRes url = none) (hq : env.queryRes = .ok [])
    (hbegin : env.beginRes = none)
    (hcreate : env.execRes (.createTable (table.getD DEFAULT_MIGRATION_TABLE)) = none)
    (hcommit : env.commitRes = none) :
    migrate env url [] table =
      ⟨.ok (),
       [.beginTx, .stmt (.createTable (table.getD DEFAULT_MIGRATION_TABLE)), .commit],
       true⟩ := by
  simp only [migrate, maybe_make_db, hconn, hq, hbegin, get_migrated, hcreate, hcommit]
  simp [walkFiles, sortFiles]

/-- Claim C6 witness: a concrete run with a custom table name creates that
table and commits. -/
theorem empty_empty_creates_table_witness :
    migrate (envOk []) "postgresql://h/db2" [] (some "tbl") =
      ⟨.ok (), [.beginTx, .stmt (.createTable "tbl"), .commit], true⟩ :=
  empty_empty_creates_table (envOk []) "postgresql://h/db2" (some "tbl") rfl rfl rfl rfl rfl

end SqlxPgMigrate
